import Mathlib

/-!
Verification development for the PyChat crawl orchestration engine.

Shallow embedding of the crawler core (src/crawler/models.py,
src/crawler/domain_worker.py, src/crawler/orchestrator.py,
src/crawler/robots_handler.py, src/crawler/content_processor.py,
src/db_utils.py) together with theorems settling the frozen claims about
the frontier queue, the dedup store, the worker loop, the scheduler,
sitemap discovery and checkpoint round-tripping.

Conventions used throughout:
- Python strings are Lean `String`s; character-level work happens on
  `String.data` (the underlying `List Char`).  `str.lower` is modelled with
  `Char.toLower` and the whitespace class with `Char.isWhitespace`
  (ASCII-faithful, which covers every keyword and separator the code uses).
- Python `set` objects are modelled as duplicate-free lists (`add` inserts
  only when absent); `collections.Counter` objects as total functions with
  default 0.
- Floats that the engine merely stores, compares or copies (quality scores,
  latencies) are modelled as rationals.
- External collaborators (the Crawl4AI fetcher, langdetect, the `simhash`
  package's hash of a token list, the quality scorer) are parameters of the
  embedded functions, exactly at the call boundaries the source uses.
-/

/-! ## String helpers (Python `in`, `lower`, `strip`, `split`) -/

/-- `isPrefB n h` is true when the char list `n` is a prefix of `h`. -/
def isPrefB : List Char → List Char → Bool
  | [], _ => true
  | _ :: _, [] => false
  | a :: as, b :: bs => a == b && isPrefB as bs

/-- `hasSub n h`: the char list `n` occurs as a contiguous substring of `h`.
Models Python `n in h` on strings. -/
def hasSub (n : List Char) : List Char → Bool
  | [] => n.isEmpty
  | c :: t => isPrefB n (c :: t) || hasSub n t

/-- Lower-cased character view of a string; models `s.lower()`. -/
def lowerChars (s : String) : List Char := s.data.map Char.toLower

/-- `kwIn kw s`: models Python `kw in s.lower()`. -/
def kwIn (kw : String) (s : String) : Bool := hasSub kw.data (lowerChars s)

/-- Strip leading and trailing whitespace; models `str.strip()`. -/
def stripChars (cs : List Char) : List Char :=
  ((cs.dropWhile Char.isWhitespace).reverse.dropWhile Char.isWhitespace).reverse

/-- Auxiliary splitter: `inWord` tells whether we are inside a word.
Counts maximal runs of non-whitespace characters, as `str.split()` does. -/
def splitCount : List Char → Bool → Nat
  | [], _ => 0
  | c :: t, inWord =>
    if c.isWhitespace then splitCount t false
    else if inWord then splitCount t true
    else 1 + splitCount t true

/-- Number of whitespace-separated words; models `len(s.split())`. -/
def wordCountOf (s : String) : Nat := splitCount s.data false

/-- First-occurrence deduplication, keeping the first copy of each element.
Models the conversion of a list through a `set`. -/
def dedupAux (seen : List String) : List String → List String
  | [] => []
  | a :: t => if a ∈ seen then dedupAux seen t else a :: dedupAux (a :: seen) t

def dedupList (l : List String) : List String := dedupAux [] l

/-! ## Frontier: `SmartQueue` (src/crawler/models.py lines 33-93) -/

/-- The three priority lanes of the frontier. -/
inductive Lane where
  | high
  | medium
  | low
deriving DecidableEq

/-- Keywords routed to the high-priority lane (models.py line 48-50). -/
def highKws : List String := ["tutorial", "guide", "example", "getting-started", "howto"]

/-- Keywords routed to the medium-priority lane (models.py line 52-54). -/
def mediumKws : List String := ["docs", "documentation", "reference", "api"]

/-- Lane classification of a URL, mirroring `SmartQueue.add`'s keyword scan
over `url.lower()`. -/
def classify (url : String) : Lane :=
  if highKws.any (fun k => kwIn k url) then Lane.high
  else if mediumKws.any (fun k => kwIn k url) then Lane.medium
  else Lane.low

/-- `SmartQueue`: three FIFO lanes plus the membership set `all_urls`
(modelled as a duplicate-free list). -/
structure SmartQueue where
  high : List String
  medium : List String
  low : List String
  all_urls : List String
deriving DecidableEq

def SmartQueue.empty : SmartQueue := ⟨[], [], [], []⟩

/-- `SmartQueue.add` (models.py lines 41-59): dedupe on insert, then route
to a lane by keyword classification; returns whether the URL was enqueued. -/
def SmartQueue.add (q : SmartQueue) (url : String) : Bool × SmartQueue :=
  if url ∈ q.all_urls then (false, q)
  else
    match classify url with
    | Lane.high => (true, { q with high := q.high ++ [url], all_urls := q.all_urls ++ [url] })
    | Lane.medium => (true, { q with medium := q.medium ++ [url], all_urls := q.all_urls ++ [url] })
    | Lane.low => (true, { q with low := q.low ++ [url], all_urls := q.all_urls ++ [url] })

/-- `SmartQueue.pop` (models.py lines 61-72): drain high before medium before
low, FIFO within a lane, removing the popped URL from the membership set.
`none` models the `IndexError` on an empty queue. -/
def SmartQueue.pop (q : SmartQueue) : Option (String × SmartQueue) :=
  match q.high with
  | u :: t => some (u, { q with high := t, all_urls := q.all_urls.erase u })
  | [] =>
    match q.medium with
    | u :: t => some (u, { q with medium := t, all_urls := q.all_urls.erase u })
    | [] =>
      match q.low with
      | u :: t => some (u, { q with low := t, all_urls := q.all_urls.erase u })
      | [] => none

/-- `len(queue)` (models.py lines 74-79). -/
def SmartQueue.qsize (q : SmartQueue) : Nat :=
  q.high.length + q.medium.length + q.low.length

/-- `SmartQueue.to_list` (models.py lines 81-86). -/
def SmartQueue.toListQ (q : SmartQueue) : List String := q.high ++ q.medium ++ q.low

/-- Fold of `add` over a list of URLs, discarding the returned booleans. -/
def SmartQueue.addAll (q : SmartQueue) (urls : List String) : SmartQueue :=
  urls.foldl (fun acc u => (acc.add u).2) q

/-- `SmartQueue.from_list` (models.py lines 88-93). -/
def SmartQueue.fromList (urls : List String) : SmartQueue :=
  SmartQueue.empty.addAll urls

/-- `n` successive pops; the observable pop order of the queue.  A plain
fuel-indexed unfolding of `pop`, stopping at the first empty pop. -/
def SmartQueue.drainN : Nat → SmartQueue → List String
  | 0, _ => []
  | n + 1, q =>
    match q.pop with
    | none => []
    | some (u, q') => u :: SmartQueue.drainN n q'

/-- Well-formedness of a frontier, as maintained by `add` and `pop`:
each lane holds only URLs that classify into it, the queued URLs are
pairwise distinct, and `all_urls` is exactly the set of queued URLs. -/
def SmartQueue.wf (q : SmartQueue) : Prop :=
  (∀ u ∈ q.high, classify u = Lane.high) ∧
  (∀ u ∈ q.medium, classify u = Lane.medium) ∧
  (∀ u ∈ q.low, classify u = Lane.low) ∧
  (q.high ++ q.medium ++ q.low).Nodup ∧
  q.all_urls.Nodup ∧
  (∀ u ∈ q.all_urls, u ∈ q.high ++ q.medium ++ q.low) ∧
  (∀ u ∈ q.high ++ q.medium ++ q.low, u ∈ q.all_urls)

instance (q : SmartQueue) : Decidable q.wf := by
  unfold SmartQueue.wf; infer_instance

/-! ## Dedup store: `DedupDatabase` (src/db_utils.py lines 9-92)

The sqlite tables are modelled in memory: `fingerprints` and `simhashes`
as lists (only membership is observed), the `titles` counter (kept in sync
with `self.seen_titles`) as a total function with default 0.  The title key
is the title itself, standing for Python's `str(hash(title))`.  The simhash
of a page, computed by the external `simhash` package, is a parameter
`shash : String → Nat`.  The `sqlite3.IntegrityError` branch of
`check_duplicate` is unreachable under the single-writer discipline the spec
requires (a primary-key clash on `fingerprints` is pre-empted by the
`SELECT`, one on `simhashes` by the Hamming-distance scan, since the
configured distance is nonnegative), so the sequential model has no
exception path. -/

/-- `settings.duplicate_title_threshold` (config.py line 49). -/
def duplicate_title_threshold : Nat := 5

/-- `settings.simhash_hamming_distance` (config.py line 50). -/
def simhash_hamming_distance : Nat := 3

/-- `re.sub(r'\s+', '', text.lower())` (db_utils.py line 76). -/
def normalizeText (t : String) : List Char :=
  (t.data.map Char.toLower).filter (fun c => !c.isWhitespace)

/-- The 5-character shingles of a char list, in positional order
(db_utils.py line 77, before the `set`). -/
def shingles (cs : List Char) : List (List Char) :=
  (List.range (cs.length - 4)).map (fun i => (cs.drop i).take 5)

/-- Lexicographic comparison on char lists by code point, as Python
`sorted` orders strings. -/
def lexLeB : List Char → List Char → Bool
  | [], _ => true
  | _ :: _, [] => false
  | a :: as, b :: bs => if a = b then lexLeB as bs else decide (a < b)

/-- First-occurrence dedup on char lists (the `set(...)` of shingles). -/
def dedupCharAux (seen : List (List Char)) : List (List Char) → List (List Char)
  | [] => []
  | a :: t => if a ∈ seen then dedupCharAux seen t else a :: dedupCharAux (a :: seen) t

/-- `DedupDatabase._calculate_fingerprint` (db_utils.py lines 75-78):
normalize, shingle, dedupe, cap at 100 shingles, sort, concatenate.
(CPython's set-iteration order is a fixed function of the shingle set; the
model fixes first-occurrence order.  Every theorem below uses only that the
fingerprint is a function of the text.) -/
def calcFingerprint (t : String) : String :=
  ⟨(((dedupCharAux [] (shingles (normalizeText t))).take 100).insertionSort
      (fun a b => lexLeB a b = true)).flatten⟩

/-- Bit-population count of the low 64 bits, bit by bit.  The source
(db_utils.py lines 83-89) clears one set bit per loop iteration; on values
below 2^64 the two computations agree. -/
def popCountAux : Nat → Nat → Nat
  | 0, _ => 0
  | f + 1, x => if x = 0 then 0 else x % 2 + popCountAux f (x / 2)

/-- `DedupDatabase._hamming_distance` (db_utils.py lines 83-89):
popcount of `(a ^ b) & ((1 << 64) - 1)`. -/
def hammingDistance (a b : Nat) : Nat :=
  popCountAux 64 ((Nat.xor a b) % 2 ^ 64)

/-- In-memory state of `DedupDatabase`. -/
structure DedupDB where
  fingerprints : List String
  simhashes : List Nat
  titles : String → Nat

/-- `DedupDatabase.check_duplicate` (db_utils.py lines 42-73), fused
check-then-record: the returned database reflects the inserts performed
before returning `False`, and is untouched on every `True` path. -/
def checkDuplicate (shash : String → Nat) (db : DedupDB) (text title : String) :
    Bool × DedupDB :=
  let fp := calcFingerprint text
  let sh := shash text
  if duplicate_title_threshold ≤ db.titles title then (true, db)
  else if fp ∈ db.fingerprints then (true, db)
  else if db.simhashes.any (fun h => hammingDistance sh h ≤ simhash_hamming_distance) then
    (true, db)
  else
    (false,
      { fingerprints := db.fingerprints ++ [fp]
        simhashes := db.simhashes ++ [sh]
        titles := Function.update db.titles title (db.titles title + 1) })

/-! ## Content processing (src/crawler/content_processor.py lines 39-135)

`langdetect` and the quality scorer are external collaborators, passed as
`isEng : String → Bool` and `qual : String → String → String → ℚ × Bool`
(content, url, title ↦ score, is_duplicate).  The already-filtered link
list is threaded through unchanged, as the source threads
`filtered_links`. -/

/-- `settings.min_char_count` (config.py line 46). -/
def min_char_count : Nat := 150

/-- `settings.min_word_count` (config.py line 45). -/
def min_word_count : Nat := 50

/-- Result of `ContentProcessor.process`: acceptance flag, quality score,
rejection reason string (as the source uses), filtered links. -/
structure ProcessResult where
  accepted : Bool
  quality_score : ℚ
  rejection_reason : Option String
  links : List String
deriving DecidableEq

/-- Python truthiness-plus-strip test
`not content or not content.strip()` on an optional string. -/
def blankContent : Option String → Bool
  | none => true
  | some s => s.data.isEmpty || (stripChars s.data).isEmpty

/-- `s.endswith(suf)` on the character level. -/
def endsWithB (s suf : String) : Bool :=
  isPrefB suf.data.reverse s.data.reverse

/-- `url.endswith(('.ipynb', '.py'))`. -/
def rawContentUrl (url : String) : Bool :=
  endsWithB url ".ipynb" || endsWithB url ".py"

/-- `ContentProcessor.process` (content_processor.py lines 39-135), with the
link filtering already applied (`flinks`). -/
def contentProcess (isEng : String → Bool) (qual : String → String → String → ℚ × Bool)
    (quality_threshold : ℚ) (url : String) (markdown text_content : Option String)
    (title : String) (flinks : List String) : ProcessResult :=
  let content? : Option String :=
    if blankContent markdown then
      if rawContentUrl url && !(text_content.getD "").data.isEmpty then text_content
      else none
    else markdown
  match content? with
  | none => ⟨false, 0, some "empty", flinks⟩
  | some content =>
    if (stripChars content.data).length < min_char_count then
      ⟨false, 0, some "empty_strip", flinks⟩
    else if wordCountOf content < min_word_count then
      ⟨false, 0, some "too_short", flinks⟩
    else if ¬ isEng content then
      ⟨false, 0, some "language", flinks⟩
    else
      let q := qual content url title
      if q.2 then ⟨false, q.1, some "duplicate", flinks⟩
      else if q.1 < quality_threshold then ⟨false, q.1, some "quality", flinks⟩
      else ⟨true, q.1, none, flinks⟩

/-- The fixed-schema global statistics map (models.py lines 103-112). -/
structure Statistics where
  pages_accepted : Nat
  pages_rejected_quality : Nat
  pages_rejected_duplicate : Nat
  pages_rejected_lang : Nat
  pages_rejected_empty : Nat
  pages_rejected_short : Nat
  pages_failed : Nat
  fetch_crawl4ai : Nat
deriving DecidableEq

/-- The rejection bookkeeping of `DomainWorker._process_url`
(domain_worker.py lines 148-158): an `elif` chain over the reason string;
any unlisted reason falls through with no increment. -/
def applyRejectionStats (stats : Statistics) (reason : Option String) : Statistics :=
  if reason = some "duplicate" then
    { stats with pages_rejected_duplicate := stats.pages_rejected_duplicate + 1 }
  else if reason = some "quality" then
    { stats with pages_rejected_quality := stats.pages_rejected_quality + 1 }
  else if reason = some "language" then
    { stats with pages_rejected_lang := stats.pages_rejected_lang + 1 }
  else if reason = some "empty" then
    { stats with pages_rejected_empty := stats.pages_rejected_empty + 1 }
  else if reason = some "too_short" then
    { stats with pages_rejected_short := stats.pages_rejected_short + 1 }
  else stats

/-! ## Worker loop steps over the shared crawl state
(src/crawler/domain_worker.py lines 55-90)

One `crawlStep` is one iteration of `DomainWorker.process_domain`'s while
loop for one domain.  Between `is_visited` and `mark_visited` the source has
no suspension point, so under asyncio's cooperative scheduling the
check-mark-dispatch sequence of an iteration is atomic; a whole run is a
fold of such steps over an arbitrary interleaving of domains.  The fetch and
`_process_url` pipeline is the collaborator boundary, abstracted as
`outcome : String → Bool × List String` returning `PageResult.success` and
`PageResult.new_links`; robots consultation is `robots : domain → url →
Bool`.  `fetched` is the ghost trace of URLs dispatched to the fetcher. -/

/-- The shared `CrawlState` slice the loop touches, plus the ghost fetch
trace. -/
structure GState where
  visited : List String
  queues : String → SmartQueue
  domain_counts : String → Nat
  failures : String → Nat
  fetched : List String

/-- `DomainWorker._can_continue` (domain_worker.py lines 168-170). -/
def canContinue (g : GState) (maxPages : String → Nat) (d : String) : Bool :=
  g.domain_counts d < maxPages d

/-- One iteration of the worker loop for domain `d` (domain_worker.py lines
55-90).  Note that `(outcome url).2` — the extracted, same-site,
filter-passing links carried back in `PageResult.new_links` — is never
used: `process_domain` drops `result.new_links`, and `add_url_to_queue`
has no caller anywhere in the engine. -/
def crawlStep (robots : String → String → Bool) (outcome : String → Bool × List String)
    (maxPages : String → Nat) (g : GState) (d : String) : GState :=
  if ¬ canContinue g maxPages d then g
  else
    match (g.queues d).pop with
    | none => g
    | some (url, q') =>
      let g1 := { g with queues := Function.update g.queues d q' }
      if url ∈ g.visited then g1
      else if ¬ robots d url then { g1 with visited := url :: g.visited }
      else
        let g2 := { g1 with visited := url :: g.visited, fetched := g.fetched ++ [url] }
        if (outcome url).1 then
          { g2 with
            domain_counts := Function.update g.domain_counts d (g.domain_counts d + 1)
            failures := Function.update g.failures d 0 }
        else
          { g2 with failures := Function.update g.failures d (g.failures d + 1) }

/-- A run: steps folded over a schedule of domain choices. -/
def crawlRun (robots : String → String → Bool) (outcome : String → Bool × List String)
    (maxPages : String → Nat) (g : GState) (sched : List String) : GState :=
  sched.foldl (crawlStep robots outcome maxPages) g

/-! ## Orchestrator: scheduling and the worker boundary
(src/crawler/orchestrator.py lines 172-232) -/

/-- Static per-domain configuration, the fields the scheduler reads
(models.py lines 6-13). -/
structure CrawlSrc where
  domain : String
  max_pages : Nat
  priority : Int
deriving DecidableEq

/-- `DomainResult` (models.py lines 24-30). -/
structure DomainResult where
  domain : String
  pages_crawled : Nat
  page_limit : Nat
  is_complete : Bool
  is_exhausted : Bool
deriving DecidableEq

/-- The `DomainResult` built by `process_domain`'s `except` branch
(domain_worker.py lines 104-113): an unhandled exception inside the loop is
caught there and reported as neither complete nor exhausted. -/
def processDomainOnError (domain : String) (maxPages : Nat) : DomainResult :=
  ⟨domain, 0, maxPages, false, false⟩

/-- `set.add` on the finished-domain set. -/
def addFinished (finished : List String) (d : String) : List String :=
  if d ∈ finished then finished else d :: finished

/-- `_run_worker`'s handling of a normally returned `DomainResult`
(orchestrator.py lines 213-226): complete or exhausted domains are recorded
finished, any other result records nothing. -/
def runWorkerFinish (finished : List String) (d : String) (res : DomainResult) :
    List String :=
  if res.is_complete then addFinished finished d
  else if res.is_exhausted then addFinished finished d
  else finished

/-- `_run_worker`'s `except` branch (orchestrator.py lines 228-230): an
exception escaping `process_domain` itself marks the domain finished. -/
def runWorkerOnException (finished : List String) (d : String) : List String :=
  addFinished finished d

/-- Python tuple comparison on `(priority, -queue_size, domain)`. -/
def candLe (a b : Int × Int × String) : Bool :=
  decide (a.1 < b.1) ||
    (a.1 = b.1 &&
      (decide (a.2.1 < b.2.1) ||
        (a.2.1 = b.2.1 && (decide (a.2.2 < b.2.2) || a.2.2 = b.2.2))))

/-- The candidate triples collected by `_get_domains_to_start`
(orchestrator.py lines 173-203): skip finished domains, active domains,
domains at or over budget, and domains with no pending URLs.  (The
finished-set insertions performed while skipping budget-exhausted domains
do not affect which candidates are collected.) -/
def schedCandidates (sources : List CrawlSrc) (finished active : List String)
    (counts qsize : String → Nat) : List (Int × Int × String) :=
  sources.foldr
    (fun src acc =>
      if src.domain ∈ finished then acc
      else if src.domain ∈ active then acc
      else if src.max_pages ≤ counts src.domain then acc
      else if qsize src.domain = 0 then acc
      else (src.priority, -(qsize src.domain : Int), src.domain) :: acc)
    []

/-- `CrawlOrchestrator._get_domains_to_start` (orchestrator.py lines
172-209): sort the candidates and start the top `maxCount`. -/
def getDomainsToStart (sources : List CrawlSrc) (finished active : List String)
    (counts qsize : String → Nat) (maxCount : Nat) : List String :=
  (((schedCandidates sources finished active counts qsize).insertionSort
      (fun a b => candLe a b = true)).take maxCount).map (fun c => c.2.2)

/-! ## Sitemap discovery (src/crawler/robots_handler.py lines 78-143)

The network is a parameter `web : String → Option (List String × List
String)`: fetching a sitemap URL either fails (`none`, covering non-200
responses and fetch/parse exceptions) or yields the `<url><loc>` page URLs
and the `<sitemap><loc>` nested sitemap URLs.  `_fetch_and_parse_sitemap`
recurses with no depth bound of its own; the Python call stack bounds it at
the interpreter recursion limit (1000 by default), and a `RecursionError`
is swallowed by the same `except` that swallows fetch failures, yielding
`[]`.  The `fuel` argument models exactly that stack budget. -/

/-- `RobotsHandler.MAX_SITEMAP_URLS` (robots_handler.py line 17). -/
def MAX_SITEMAP_URLS : Nat := 50

/-- The entry guard `remaining_quota is not None and remaining_quota <= 0`
(robots_handler.py line 117). -/
def quotaExhausted : Option Int → Bool
  | some q => decide (q ≤ 0)
  | none => false

/-- Python's default recursion limit, the only depth bound the source has. -/
def pyRecursionLimit : Nat := 1000

/-- `RobotsHandler._fetch_and_parse_sitemap` (robots_handler.py lines
111-143).  `oq` is `remaining_quota` (an `Int`, `none` for Python `None`);
the inner fold is the `for nested_url in sitemaps[:3]` loop with its
post-extend break. -/
def fetchAndParseSitemap (web : String → Option (List String × List String)) :
    Nat → String → Option Int → List String
  | 0, _, _ => []
  | fuel + 1, url, oq =>
    if quotaExhausted oq then []
    else
      match web url with
      | none => []
      | some (urls, sitemaps) =>
        let collected := match oq with | some q => urls.take q.toNat | none => urls
        let step := fun (st : List String × Bool) (n : String) =>
          if st.2 then st
          else
            let childQ := match oq with
              | none => none
              | some q => some (q - (st.1.length : Int))
            let acc' := st.1 ++ fetchAndParseSitemap web fuel n childQ
            match oq with
            | some q => (acc', decide (q ≤ (acc'.length : Int)))
            | none => (acc', false)
        ((sitemaps.take 3).foldl step (collected, false)).1

/-- `RobotsHandler.fetch_sitemaps` (robots_handler.py lines 78-109), cache
aside: iterate the first three declared sitemaps (defaulting to
`/sitemap.xml`) with the shared quota, then truncate and deduplicate. -/
def fetchSitemaps (web : String → Option (List String × List String))
    (declared : List String) (domain : String) : List String :=
  let sitemap_urls :=
    if declared.isEmpty then ["https://" ++ domain ++ "/sitemap.xml"] else declared
  let step := fun (st : List String × Bool) (s : String) =>
    if st.2 then st
    else
      let urls := fetchAndParseSitemap web pyRecursionLimit s
        (some ((MAX_SITEMAP_URLS : Int) - (st.1.length : Int)))
      let all := st.1 ++ urls
      (all, decide (MAX_SITEMAP_URLS ≤ all.length))
  let all := ((sitemap_urls.take 3).foldl step ([], false)).1
  dedupList (all.take MAX_SITEMAP_URLS)

/-! ## Checkpoint serialization (src/crawler/models.py lines 96-196,
src/crawler/state_manager.py lines 21-58)

`to_dict` flattens every frontier through `SmartQueue.to_list` and copies
the remaining fields verbatim; `from_dict` rebuilds every frontier through
`SmartQueue.from_list` and copies the rest back.  The JSON layer
(`json.dump` to a temp file, atomic rename, `json.load`) transports the
dictionary verbatim and is not re-modelled.  Latency floats are modelled as
rationals; they are only copied. -/

/-- Per-domain stats record (models.py lines 117-122); `seedPref` is the
`seed_prefix` entry. -/
structure DomainStats where
  seedPref : String
  avg_latency : ℚ
  request_count : Nat
  total_latency : ℚ
deriving DecidableEq

/-- The serializable whole of `CrawlState`.  Dictionaries keyed by domain
are association lists in key order. -/
structure CrawlStateM where
  visited : List String
  queues : List (String × SmartQueue)
  domain_counts : List (String × Nat)
  domain_stats : List (String × DomainStats)
  statistics : Statistics
deriving DecidableEq

/-- The checkpoint dictionary produced by `CrawlState.to_dict`
(models.py lines 173-183). -/
structure CheckpointDict where
  visited : List String
  queues : List (String × List String)
  domain_counts : List (String × Nat)
  domain_stats : List (String × DomainStats)
  statistics : Statistics
deriving DecidableEq

/-- `CrawlState.to_dict` (models.py lines 173-183). -/
def CrawlStateM.to_dict (s : CrawlStateM) : CheckpointDict :=
  ⟨s.visited, s.queues.map (fun p => (p.1, p.2.toListQ)), s.domain_counts,
    s.domain_stats, s.statistics⟩

/-- `CrawlState.from_dict` (models.py lines 185-196). -/
def CrawlStateM.from_dict (d : CheckpointDict) : CrawlStateM :=
  ⟨d.visited, d.queues.map (fun p => (p.1, SmartQueue.fromList p.2)),
    d.domain_counts, d.domain_stats, d.statistics⟩

/-- Modelled from the spec: sitemap expansion that "recursively expands
nested sitemap indexes up to a depth of 3" — identical to
`fetchAndParseSitemap` except that the recursion is cut off by a depth
budget starting at 3, instead of only by the interpreter stack.  Used
solely to compare the code's behaviour with the claimed depth bound. -/
def fetchSitemapSpecDepth (web : String → Option (List String × List String)) :
    Nat → String → Option Int → List String
  | depth, url, oq =>
    if quotaExhausted oq then []
    else
      match web url with
      | none => []
      | some (urls, sitemaps) =>
        let collected := match oq with | some q => urls.take q.toNat | none => urls
        match depth with
        | 0 => collected
        | d + 1 =>
          let step := fun (st : List String × Bool) (n : String) =>
            if st.2 then st
            else
              let childQ := match oq with
                | none => none
                | some q => some (q - (st.1.length : Int))
              let acc' := st.1 ++ fetchSitemapSpecDepth web d n childQ
              match oq with
              | some q => (acc', decide (q ≤ (acc'.length : Int)))
              | none => (acc', false)
          ((sitemaps.take 3).foldl step (collected, false)).1

/-- Modelled from the spec: `fetchSitemaps` with the depth-3 bound of the
spec's sentence in place of the unbounded recursion. -/
def fetchSitemapsSpecDepth3 (web : String → Option (List String × List String))
    (declared : List String) (domain : String) : List String :=
  let sitemap_urls :=
    if declared.isEmpty then ["https://" ++ domain ++ "/sitemap.xml"] else declared
  let step := fun (st : List String × Bool) (s : String) =>
    if st.2 then st
    else
      let urls := fetchSitemapSpecDepth web 3 s
        (some ((MAX_SITEMAP_URLS : Int) - (st.1.length : Int)))
      let all := st.1 ++ urls
      (all, decide (MAX_SITEMAP_URLS ≤ all.length))
  let all := ((sitemap_urls.take 3).foldl step ([], false)).1
  dedupList (all.take MAX_SITEMAP_URLS)

/-! ## Concrete fixtures used by witnesses and counterexamples -/

/-- A web of sitemaps forming a chain of nested sitemap indexes five levels
deep; only the deepest sitemap carries a page URL. -/
def chainWeb : String → Option (List String × List String) := fun u =>
  if u = "https://d/s0" then some ([], ["https://d/s1"])
  else if u = "https://d/s1" then some ([], ["https://d/s2"])
  else if u = "https://d/s2" then some ([], ["https://d/s3"])
  else if u = "https://d/s3" then some ([], ["https://d/s4"])
  else if u = "https://d/s4" then some (["https://d/page"], [])
  else none

/-- A crawl state holding a single domain with one queued seed URL. -/
def gSeed : GState :=
  { visited := []
    queues := fun d =>
      if d = "ex.com" then SmartQueue.fromList ["https://ex.com/a"] else SmartQueue.empty
    domain_counts := fun _ => 0
    failures := fun _ => 0
    fetched := [] }

/-- A fetch/process outcome: the page is accepted and one same-site,
filter-passing link is extracted and returned in `PageResult.new_links`. -/
def outcomeWithLink : String → Bool × List String :=
  fun _ => (true, ["https://ex.com/tutorial/t"])

/-- An all-zero statistics record. -/
def statsZero : Statistics := ⟨0, 0, 0, 0, 0, 0, 0, 0⟩

/-- A small well-formed crawl state used to witness the checkpoint
round-trip. -/
def csFix : CrawlStateM :=
  { visited := ["https://d/x"]
    queues := [("d", SmartQueue.fromList ["https://d/y", "https://d/docs/z", "https://d/guide/w"])]
    domain_counts := [("d", 2)]
    domain_stats := [("d", ⟨"https://d", 1, 0, 0⟩)]
    statistics := ⟨2, 1, 0, 0, 0, 0, 0, 3⟩ }

/-- An empty dedup store. -/
def dbEmptyD : DedupDB := ⟨[], [], fun _ => 0⟩

/-- A dedup store whose only record is a title already seen five times. -/
def dbT5 : DedupDB := ⟨[], [], fun t => if t = "T" then 5 else 0⟩

/-! ## Theorems -/

/-! ### Dedup store -/

/-- The boolean verdict of the fused check, characterised as the three-way
disjunction of the gate conditions. -/
theorem checkDuplicate_fst_iff (shash : String → Nat) (db : DedupDB) (text title : String) :
    (checkDuplicate shash db text title).1 = true ↔
      duplicate_title_threshold ≤ db.titles title ∨
      calcFingerprint text ∈ db.fingerprints ∨
      ∃ h ∈ db.simhashes,
        hammingDistance (shash text) h ≤ simhash_hamming_distance := by
  simp only [checkDuplicate]
  split_ifs with h1 h2 h3
  · simp [h1]
  · simp [h2]
  · simp only [List.any_eq_true, decide_eq_true_eq] at h3
    simp [h3]
  · simp only [List.any_eq_true, decide_eq_true_eq] at h3
    simp [h1, h2, h3]

/-- The fused check leaves the store untouched on a `true` verdict and
performs exactly the three inserts on a `false` verdict. -/
theorem checkDuplicate_state (shash : String → Nat) (db : DedupDB) (text title : String) :
    ((checkDuplicate shash db text title).1 = true →
      (checkDuplicate shash db text title).2 = db) ∧
    ((checkDuplicate shash db text title).1 = false →
      (checkDuplicate shash db text title).2 =
        { fingerprints := db.fingerprints ++ [calcFingerprint text]
          simhashes := db.simhashes ++ [shash text]
          titles := Function.update db.titles title (db.titles title + 1) }) := by
  simp only [checkDuplicate]
  split_ifs <;> simp

/-- C4: the duplicate gate verdict is exactly the disjunction of the
title-frequency, exact-fingerprint and simhash-distance conditions, and the
three advertised consequences follow: identical fingerprints are never both
accepted, a page within the configured Hamming distance of an accepted
page's simhash is rejected, and a page whose title already reached the
threshold is rejected regardless of content. -/
theorem c4_duplicate_gate :
    (∀ (shash : String → Nat) (db : DedupDB) (text title : String),
        (checkDuplicate shash db text title).1 = true ↔
          duplicate_title_threshold ≤ db.titles title ∨
          calcFingerprint text ∈ db.fingerprints ∨
          ∃ h ∈ db.simhashes,
            hammingDistance (shash text) h ≤ simhash_hamming_distance) ∧
    (∀ (shash : String → Nat) (db db' : DedupDB) (t1 ti1 t2 ti2 : String),
        calcFingerprint t1 = calcFingerprint t2 →
        checkDuplicate shash db t1 ti1 = (false, db') →
        (checkDuplicate shash db' t2 ti2).1 = true) ∧
    (∀ (shash : String → Nat) (db db' : DedupDB) (t1 ti1 t2 ti2 : String),
        checkDuplicate shash db t1 ti1 = (false, db') →
        hammingDistance (shash t2) (shash t1) ≤ simhash_hamming_distance →
        (checkDuplicate shash db' t2 ti2).1 = true) ∧
    (∀ (shash : String → Nat) (db : DedupDB) (text title : String),
        duplicate_title_threshold ≤ db.titles title →
        (checkDuplicate shash db text title).1 = true) := by
  refine ⟨checkDuplicate_fst_iff, ?_, ?_, ?_⟩
  · intro shash db db' t1 ti1 t2 ti2 hfp h
    have h1 : (checkDuplicate shash db t1 ti1).1 = false := by rw [h]
    have h2 : (checkDuplicate shash db t1 ti1).2 = db' := by rw [h]
    have hdb := (checkDuplicate_state shash db t1 ti1).2 h1
    rw [h2] at hdb
    rw [checkDuplicate_fst_iff]
    refine Or.inr (Or.inl ?_)
    rw [hdb, ← hfp]
    simp
  · intro shash db db' t1 ti1 t2 ti2 h hham
    have h1 : (checkDuplicate shash db t1 ti1).1 = false := by rw [h]
    have h2 : (checkDuplicate shash db t1 ti1).2 = db' := by rw [h]
    have hdb := (checkDuplicate_state shash db t1 ti1).2 h1
    rw [h2] at hdb
    rw [checkDuplicate_fst_iff]
    refine Or.inr (Or.inr ⟨shash t1, ?_, hham⟩)
    rw [hdb]
    simp
  · intro shash db text title h
    rw [checkDuplicate_fst_iff]
    exact Or.inl h

/-- C4 witness: the gate's consequences evaluated on concrete stores —
a recorded text rejects an identical-fingerprint resubmission, a recorded
simhash rejects a hash at Hamming distance 2, and a five-times-seen title
rejects a sixth page outright. -/
theorem c4_witness :
    (checkDuplicate (fun _ => 0) (checkDuplicate (fun _ => 0) dbEmptyD "ab" "t").2 "ab" "t2").1 = true ∧
    (checkDuplicate (fun s => s.length) (checkDuplicate (fun s => s.length) dbEmptyD "hello" "t").2 "hello!" "t3").1 = true ∧
    (checkDuplicate (fun _ => 0) dbT5 "anything" "T").1 = true := by
  refine ⟨?_, ?_, ?_⟩
  · exact c4_duplicate_gate.2.1 (fun _ => 0) dbEmptyD _ "ab" "t" "ab" "t2" rfl rfl
  · exact c4_duplicate_gate.2.2.1 (fun s => s.length) dbEmptyD _ "hello" "t" "hello!" "t3" rfl (by decide)
  · exact c4_duplicate_gate.2.2.2 (fun _ => 0) dbT5 "anything" "T" (by decide)

/-- C10: `check_duplicate` fuses checking and recording — a `true` verdict
leaves the store untouched, and a `false` verdict has already inserted the
fingerprint and the simhash and bumped exactly this title's counter. -/
theorem c10_check_and_record_fused :
    ∀ (shash : String → Nat) (db : DedupDB) (text title : String),
      ((checkDuplicate shash db text title).1 = true →
        (checkDuplicate shash db text title).2 = db) ∧
      ((checkDuplicate shash db text title).1 = false →
        (checkDuplicate shash db text title).2.fingerprints =
          db.fingerprints ++ [calcFingerprint text] ∧
        (checkDuplicate shash db text title).2.simhashes =
          db.simhashes ++ [shash text] ∧
        (checkDuplicate shash db text title).2.titles title = db.titles title + 1 ∧
        ∀ t, t ≠ title →
          (checkDuplicate shash db text title).2.titles t = db.titles t) := by
  intro shash db text title
  refine ⟨(checkDuplicate_state shash db text title).1, ?_⟩
  intro h
  have hdb := (checkDuplicate_state shash db text title).2 h
  rw [hdb]
  refine ⟨rfl, rfl, ?_, ?_⟩
  · simp
  · intro t ht
    simp [Function.update_noteq ht]

/-- C10 witness: the frame conditions evaluated on concrete stores — the
title-gated rejection leaves the store unchanged, and an accepted page's
inserts are visible in the returned store. -/
theorem c10_witness :
    (checkDuplicate (fun _ => 0) dbT5 "x" "T").2 = dbT5 ∧
    (checkDuplicate (fun _ => 0) dbEmptyD "ab" "t").2.fingerprints =
      dbEmptyD.fingerprints ++ [calcFingerprint "ab"] ∧
    (checkDuplicate (fun _ => 0) dbEmptyD "ab" "t").2.simhashes =
      dbEmptyD.simhashes ++ [(fun _ => 0 : String → Nat) "ab"] ∧
    (checkDuplicate (fun _ => 0) dbEmptyD "ab" "t").2.titles "t" = dbEmptyD.titles "t" + 1 ∧
    (checkDuplicate (fun _ => 0) dbEmptyD "ab" "t").2.titles "other" = dbEmptyD.titles "other" := by
  have h1 := (c10_check_and_record_fused (fun _ => 0) dbT5 "x" "T").1 (by decide)
  have h2 := (c10_check_and_record_fused (fun _ => 0) dbEmptyD "ab" "t").2 (by decide)
  exact ⟨h1, h2.1, h2.2.1, h2.2.2.1, h2.2.2.2 "other" (by decide)⟩

/-! ### Frontier pop order -/

/-- Draining exactly as many pops as there are queued URLs returns the
lanes in strict priority order, FIFO within each lane. -/
theorem drainN_lanes : ∀ (n : Nat) (h m l a : List String),
    n = h.length + m.length + l.length →
    SmartQueue.drainN n ⟨h, m, l, a⟩ = h ++ m ++ l := by
  intro n
  induction n with
  | zero =>
    intro h m l a hn
    have hh : h = [] := List.length_eq_zero.mp (by omega)
    have hm : m = [] := List.length_eq_zero.mp (by omega)
    have hl : l = [] := List.length_eq_zero.mp (by omega)
    simp [hh, hm, hl, SmartQueue.drainN]
  | succ n ih =>
    intro h m l a hn
    match h with
    | u :: t =>
      simp only [SmartQueue.drainN, SmartQueue.pop]
      rw [ih t m l (a.erase u) (by simp at hn; omega)]
      simp
    | [] =>
      match m with
      | u :: t =>
        simp only [SmartQueue.drainN, SmartQueue.pop]
        rw [ih [] t l (a.erase u) (by simp at hn ⊢; omega)]
        simp
      | [] =>
        match l with
        | u :: t =>
          simp only [SmartQueue.drainN, SmartQueue.pop]
          rw [ih [] [] t (a.erase u) (by simp at hn ⊢; omega)]
          simp
        | [] => simp at hn

/-- Folding `add` over pairwise-distinct fresh URLs appends each URL to the
lane it classifies into and records all of them in the membership set. -/
theorem addAll_lanes : ∀ (urls : List String) (q : SmartQueue),
    urls.Nodup → (∀ u ∈ urls, u ∉ q.all_urls) →
    q.addAll urls =
      ⟨q.high ++ urls.filter (fun u => decide (classify u = Lane.high)),
       q.medium ++ urls.filter (fun u => decide (classify u = Lane.medium)),
       q.low ++ urls.filter (fun u => decide (classify u = Lane.low)),
       q.all_urls ++ urls⟩ := by
  intro urls
  induction urls with
  | nil => intro q _ _; simp [SmartQueue.addAll]
  | cons u rest ih =>
    intro q hnd hfresh
    have hu : u ∉ q.all_urls := hfresh u (List.mem_cons_self u rest)
    have hstep : q.addAll (u :: rest) = ((q.add u).2).addAll rest := by
      simp [SmartQueue.addAll]
    have hrest : ∀ v ∈ rest, v ∉ ((q.add u).2).all_urls := by
      intro v hv
      have hvq : v ∉ q.all_urls := hfresh v (List.mem_cons_of_mem u hv)
      have hvu : v ≠ u := by
        intro hEq
        exact (List.nodup_cons.mp hnd).1 (hEq ▸ hv)
      simp only [SmartQueue.add, if_neg hu]
      rcases hcl : classify u with _ | _ | _ <;>
        simp [List.mem_append, hvq, hvu]
    rw [hstep]
    rw [ih ((q.add u).2) (List.nodup_cons.mp hnd).2 hrest]
    simp only [SmartQueue.add, if_neg hu]
    rcases hcl : classify u with _ | _ | _ <;>
      simp [List.filter_cons, hcl, List.append_assoc]

/-- Every URL classifies into exactly one lane, so the three lane filters
partition a URL list. -/
theorem classify_partition : ∀ l : List String,
    (l.filter (fun u => decide (classify u = Lane.high))).length +
    (l.filter (fun u => decide (classify u = Lane.medium))).length +
    (l.filter (fun u => decide (classify u = Lane.low))).length = l.length := by
  intro l
  induction l with
  | nil => simp
  | cons u rest ih =>
    rcases hcl : classify u with _ | _ | _ <;>
      simp [List.filter_cons, hcl] <;> omega

/-- C6: frontier pop order is a deterministic function of the successful
adds — draining a frontier built from pairwise-distinct URLs returns the
high-classified URLs in insertion order, then the medium ones, then the low
ones; in particular adding `/docs/a`, `/tutorial/b`, `/x` and popping three
times yields `/tutorial/b`, `/docs/a`, `/x`. -/
theorem c6_frontier_pop_order :
    (∀ urls : List String, urls.Nodup →
        SmartQueue.drainN urls.length (SmartQueue.fromList urls) =
          urls.filter (fun u => decide (classify u = Lane.high)) ++
          urls.filter (fun u => decide (classify u = Lane.medium)) ++
          urls.filter (fun u => decide (classify u = Lane.low))) ∧
    SmartQueue.drainN 3 (SmartQueue.fromList ["/docs/a", "/tutorial/b", "/x"]) =
      ["/tutorial/b", "/docs/a", "/x"] := by
  constructor
  · intro urls hnd
    have hfrom := addAll_lanes urls SmartQueue.empty hnd (by intro u _; simp [SmartQueue.empty])
    rw [SmartQueue.fromList, hfrom]
    simp only [SmartQueue.empty, List.nil_append]
    exact drainN_lanes urls.length _ _ _ _ (classify_partition urls).symm
  · decide

/-- C6 witness: the general lane-order theorem applied to a concrete
duplicate-free URL list. -/
theorem c6_witness :
    SmartQueue.drainN 2 (SmartQueue.fromList ["/a", "/docs/b"]) = ["/docs/b", "/a"] := by
  have h := c6_frontier_pop_order.1 ["/a", "/docs/b"] (by decide)
  exact h.trans (by decide)

/-! ### Checkpoint round-trip -/

/-- Rebuilding a well-formed frontier from its serialized list restores the
three lanes exactly and the membership set up to set equality. -/
theorem fromList_toListQ (q : SmartQueue) (hwf : q.wf) :
    (SmartQueue.fromList q.toListQ).high = q.high ∧
    (SmartQueue.fromList q.toListQ).medium = q.medium ∧
    (SmartQueue.fromList q.toListQ).low = q.low ∧
    (∀ u, u ∈ (SmartQueue.fromList q.toListQ).all_urls ↔ u ∈ q.all_urls) := by
  obtain ⟨hh, hm, hl, hnd, _, hin, hout⟩ := hwf
  have hfrom := addAll_lanes q.toListQ SmartQueue.empty hnd
    (by intro u _; simp [SmartQueue.empty])
  rw [SmartQueue.fromList, hfrom]
  simp only [SmartQueue.empty, List.nil_append, SmartQueue.toListQ]
  have hfh : (q.high ++ q.medium ++ q.low).filter
      (fun u => decide (classify u = Lane.high)) = q.high := by
    simp only [List.filter_append]
    rw [List.filter_eq_self.mpr (by intro a ha; simpa using hh a ha),
        List.filter_eq_nil_iff.mpr (by intro a ha; simp [hm a ha]),
        List.filter_eq_nil_iff.mpr (by intro a ha; simp [hl a ha])]
    simp
  have hfm : (q.high ++ q.medium ++ q.low).filter
      (fun u => decide (classify u = Lane.medium)) = q.medium := by
    simp only [List.filter_append]
    rw [List.filter_eq_nil_iff.mpr (by intro a ha; simp [hh a ha]),
        List.filter_eq_self.mpr (by intro a ha; simpa using hm a ha),
        List.filter_eq_nil_iff.mpr (by intro a ha; simp [hl a ha])]
    simp
  have hfl : (q.high ++ q.medium ++ q.low).filter
      (fun u => decide (classify u = Lane.low)) = q.low := by
    simp only [List.filter_append]
    rw [List.filter_eq_nil_iff.mpr (by intro a ha; simp [hh a ha]),
        List.filter_eq_nil_iff.mpr (by intro a ha; simp [hm a ha]),
        List.filter_eq_self.mpr (by intro a ha; simpa using hl a ha)]
    simp
  refine ⟨hfh, hfm, hfl, ?_⟩
  intro u
  constructor
  · intro hu; exact hout u hu
  · intro hu; exact hin u hu

/-- C5: checkpoint round-trip is lossless — `from_dict` after `to_dict`
restores the visited set, the per-domain counters and stats, the global
statistics map verbatim, and every well-formed frontier lane for lane in
order, with its membership set equal as a set. -/
theorem c5_checkpoint_roundtrip (s : CrawlStateM) (hwf : ∀ p ∈ s.queues, p.2.wf) :
    (CrawlStateM.from_dict s.to_dict).visited = s.visited ∧
    (CrawlStateM.from_dict s.to_dict).domain_counts = s.domain_counts ∧
    (CrawlStateM.from_dict s.to_dict).domain_stats = s.domain_stats ∧
    (CrawlStateM.from_dict s.to_dict).statistics = s.statistics ∧
    List.Forall₂
      (fun p p' => p.1 = p'.1 ∧ p.2.high = p'.2.high ∧ p.2.medium = p'.2.medium ∧
        p.2.low = p'.2.low ∧ (∀ u, u ∈ p.2.all_urls ↔ u ∈ p'.2.all_urls))
      (CrawlStateM.from_dict s.to_dict).queues s.queues := by
  refine ⟨rfl, rfl, rfl, rfl, ?_⟩
  simp only [CrawlStateM.from_dict, CrawlStateM.to_dict, List.map_map]
  have : ∀ p ∈ s.queues,
      (fun p' => p'.1 = p.1 ∧ p'.2.high = p.2.high ∧ p'.2.medium = p.2.medium ∧
        p'.2.low = p.2.low ∧ (∀ u, u ∈ p'.2.all_urls ↔ u ∈ p.2.all_urls))
      ((fun pr => (pr.1, SmartQueue.fromList pr.2)) ((fun pr => (pr.1, pr.2.toListQ)) p)) := by
    intro p hp
    obtain ⟨h1, h2, h3, h4⟩ := fromList_toListQ p.2 (hwf p hp)
    exact ⟨rfl, h1, h2, h3, h4⟩
  revert this
  generalize s.queues = qs
  intro hqs
  induction qs with
  | nil => simp
  | cons p rest ih =>
    simp only [List.map_cons, Function.comp]
    exact List.Forall₂.cons (hqs p (List.mem_cons_self p rest))
      (ih (fun p' hp' => hqs p' (List.mem_cons_of_mem p hp')))

/-- C5 witness: the round-trip theorem applied to a concrete crawl state
whose single frontier holds one URL in each lane. -/
theorem c5_witness :
    (∀ p ∈ csFix.queues, p.2.wf) ∧
    (CrawlStateM.from_dict csFix.to_dict).visited = csFix.visited ∧
    (CrawlStateM.from_dict csFix.to_dict).domain_counts = csFix.domain_counts ∧
    (CrawlStateM.from_dict csFix.to_dict).domain_stats = csFix.domain_stats ∧
    (CrawlStateM.from_dict csFix.to_dict).statistics = csFix.statistics ∧
    List.Forall₂
      (fun p p' => p.1 = p'.1 ∧ p.2.high = p'.2.high ∧ p.2.medium = p'.2.medium ∧
        p.2.low = p'.2.low ∧ (∀ u, u ∈ p.2.all_urls ↔ u ∈ p'.2.all_urls))
      (CrawlStateM.from_dict csFix.to_dict).queues csFix.queues := by
  refine ⟨by decide, ?_⟩
  exact c5_checkpoint_roundtrip csFix (by decide)

/-! ### Worker loop and scheduler invariants -/

/-- One worker iteration never pushes a domain counter past its budget:
the loop re-checks the budget before popping and increments by at most one. -/
theorem crawlStep_counts_le (robots : String → String → Bool)
    (outcome : String → Bool × List String) (maxPages : String → Nat)
    (g : GState) (d0 : String)
    (hinv : ∀ d, g.domain_counts d ≤ maxPages d) :
    ∀ d, (crawlStep robots outcome maxPages g d0).domain_counts d ≤ maxPages d := by
  intro d
  unfold crawlStep
  split_ifs with hcan
  · split
    · exact hinv d
    · rename_i url q' hp
      split_ifs with hvis hrob hsucc <;>
        first
          | exact hinv d
          | (by_cases hd : d = d0
             · subst hd
               simp only [Function.update_same]
               have hlt : g.domain_counts d < maxPages d := by
                 simpa [canContinue] using hcan
               omega
             · simp only [Function.update_noteq hd]
               exact hinv d)
  · exact hinv d

/-- Visited-set growth and fetch-trace facts of one worker iteration:
visited only grows, and a URL is dispatched to the fetcher only after
passing the not-yet-visited check and being marked visited in the same
atomic step. -/
theorem crawlStep_visited_fetched (robots : String → String → Bool)
    (outcome : String → Bool × List String) (maxPages : String → Nat)
    (g : GState) (d0 : String) :
    (∀ u ∈ g.visited, u ∈ (crawlStep robots outcome maxPages g d0).visited) ∧
    (g.fetched.Nodup → (∀ u ∈ g.fetched, u ∈ g.visited) →
      ((crawlStep robots outcome maxPages g d0).fetched.Nodup ∧
       (∀ u ∈ (crawlStep robots outcome maxPages g d0).fetched,
          u ∈ (crawlStep robots outcome maxPages g d0).visited))) := by
  unfold crawlStep
  split_ifs with hcan
  · split
    · exact ⟨fun u hu => hu, fun hnd hsub => ⟨hnd, hsub⟩⟩
    · rename_i url q' hp
      split_ifs with hvis hrob hsucc <;>
        first
          | exact ⟨fun u hu => hu, fun hnd hsub => ⟨hnd, hsub⟩⟩
          | exact ⟨fun u hu => List.mem_cons_of_mem url hu,
              fun hnd hsub => ⟨hnd, fun u hu => List.mem_cons_of_mem url (hsub u hu)⟩⟩
          | (refine ⟨fun u hu => List.mem_cons_of_mem url hu, ?_⟩
             intro hnd hsub
             have hurl : url ∉ g.fetched := fun hmem => hvis (hsub url hmem)
             constructor
             · simp [List.nodup_append, hnd, hurl]
             · intro u hu
               simp only [List.mem_append, List.mem_singleton] at hu
               rcases hu with hu | hu
               · exact List.mem_cons_of_mem url (hsub u hu)
               · subst hu
                 exact List.mem_cons_self u g.visited)
  · exact ⟨fun u hu => hu, fun hnd hsub => ⟨hnd, hsub⟩⟩

/-- Fold-level budget invariant over an arbitrary schedule. -/
theorem crawlRun_counts_le (robots : String → String → Bool)
    (outcome : String → Bool × List String) (maxPages : String → Nat) :
    ∀ (sched : List String) (g : GState),
      (∀ d, g.domain_counts d ≤ maxPages d) →
      ∀ d, (crawlRun robots outcome maxPages g sched).domain_counts d ≤ maxPages d := by
  intro sched
  induction sched with
  | nil => intro g hinv d; exact hinv d
  | cons d0 rest ih =>
    intro g hinv d
    exact ih (crawlStep robots outcome maxPages g d0)
      (crawlStep_counts_le robots outcome maxPages g d0 hinv) d

/-- Fold-level visited-monotonicity and fetch-trace freshness over an
arbitrary schedule. -/
theorem crawlRun_visited_fetched (robots : String → String → Bool)
    (outcome : String → Bool × List String) (maxPages : String → Nat) :
    ∀ (sched : List String) (g : GState),
      (∀ u ∈ g.visited, u ∈ (crawlRun robots outcome maxPages g sched).visited) ∧
      (g.fetched.Nodup → (∀ u ∈ g.fetched, u ∈ g.visited) →
        ((crawlRun robots outcome maxPages g sched).fetched.Nodup ∧
         (∀ u ∈ (crawlRun robots outcome maxPages g sched).fetched,
            u ∈ (crawlRun robots outcome maxPages g sched).visited))) := by
  intro sched
  induction sched with
  | nil => intro g; exact ⟨fun u hu => hu, fun hnd hsub => ⟨hnd, hsub⟩⟩
  | cons d0 rest ih =>
    intro g
    obtain ⟨hstepv, hstepf⟩ := crawlStep_visited_fetched robots outcome maxPages g d0
    obtain ⟨hrunv, hrunf⟩ := ih (crawlStep robots outcome maxPages g d0)
    refine ⟨fun u hu => hrunv u (hstepv u hu), ?_⟩
    intro hnd hsub
    obtain ⟨hnd', hsub'⟩ := hstepf hnd hsub
    exact hrunf hnd' hsub'

/-- Membership in the scheduler's candidate list certifies the guards that
`_get_domains_to_start` checked for the candidate's source entry. -/
theorem mem_schedCandidates (sources : List CrawlSrc) (finished active : List String)
    (counts qsize : String → Nat) :
    ∀ c ∈ schedCandidates sources finished active counts qsize,
      ∃ src ∈ sources,
        c = (src.priority, -(qsize src.domain : Int), src.domain) ∧
        src.domain ∉ finished ∧ src.domain ∉ active ∧
        counts src.domain < src.max_pages ∧ qsize src.domain ≠ 0 := by
  induction sources with
  | nil => intro c hc; simp [schedCandidates] at hc
  | cons src rest ih =>
    intro c hc
    simp only [schedCandidates, List.foldr_cons] at hc
    split_ifs at hc with h1 h2 h3 h4
    · obtain ⟨s, hs, hrest⟩ := ih c hc
      exact ⟨s, List.mem_cons_of_mem src hs, hrest⟩
    · obtain ⟨s, hs, hrest⟩ := ih c hc
      exact ⟨s, List.mem_cons_of_mem src hs, hrest⟩
    · obtain ⟨s, hs, hrest⟩ := ih c hc
      exact ⟨s, List.mem_cons_of_mem src hs, hrest⟩
    · obtain ⟨s, hs, hrest⟩ := ih c hc
      exact ⟨s, List.mem_cons_of_mem src hs, hrest⟩
    · rcases List.mem_cons.mp hc with hc | hc
      · exact ⟨src, List.mem_cons_self src rest, hc, h1, h2, by omega, h4⟩
      · obtain ⟨s, hs, hrest⟩ := ih c hc
        exact ⟨s, List.mem_cons_of_mem src hs, hrest⟩

/-- Every domain the scheduler starts passed its guards: it is some source's
domain, not finished, not active, under budget, with pending URLs. -/
theorem mem_getDomainsToStart (sources : List CrawlSrc) (finished active : List String)
    (counts qsize : String → Nat) (maxCount : Nat) :
    ∀ d ∈ getDomainsToStart sources finished active counts qsize maxCount,
      ∃ src ∈ sources, src.domain = d ∧ d ∉ finished ∧ d ∉ active ∧
        counts d < src.max_pages ∧ qsize d ≠ 0 := by
  intro d hd
  simp only [getDomainsToStart, List.mem_map] at hd
  obtain ⟨c, hc, hcd⟩ := hd
  have hc' : c ∈ (schedCandidates sources finished active counts qsize).insertionSort
      (fun a b => candLe a b = true) := List.take_subset _ _ hc
  have hc'' : c ∈ schedCandidates sources finished active counts qsize :=
    ((schedCandidates sources finished active counts qsize).perm_insertionSort
      (fun a b => candLe a b = true)).mem_iff.mp hc'
  obtain ⟨src, hsrc, hceq, hfin, hact, hcount, hq⟩ :=
    mem_schedCandidates sources finished active counts qsize c hc''
  subst hceq
  simp only at hcd
  subst hcd
  exact ⟨src, hsrc, rfl, hfin, hact, hcount, hq⟩

/-- A pop only removes: every URL queued after a pop was queued before. -/
theorem pop_toListQ_sub (q : SmartQueue) (u : String) (q' : SmartQueue)
    (h : q.pop = some (u, q')) : ∀ v ∈ q'.toListQ, v ∈ q.toListQ := by
  rcases q with ⟨h1, m1, l1, a1⟩
  rcases h1 with _ | ⟨x, t⟩
  · rcases m1 with _ | ⟨x, t⟩
    · rcases l1 with _ | ⟨x, t⟩
      · simp [SmartQueue.pop] at h
      · simp only [SmartQueue.pop] at h
        obtain ⟨hu, hq⟩ := Prod.mk.injEq .. ▸ Option.some.injEq .. ▸ h
        subst hq
        intro v hv
        simp only [SmartQueue.toListQ, List.mem_append] at hv ⊢
        rcases hv with (hv | hv) | hv <;> simp_all [List.mem_cons]
    · simp only [SmartQueue.pop] at h
      obtain ⟨hu, hq⟩ := Prod.mk.injEq .. ▸ Option.some.injEq .. ▸ h
      subst hq
      intro v hv
      simp only [SmartQueue.toListQ, List.mem_append] at hv ⊢
      rcases hv with (hv | hv) | hv <;> simp_all [List.mem_cons]
  · simp only [SmartQueue.pop] at h
    obtain ⟨hu, hq⟩ := Prod.mk.injEq .. ▸ Option.some.injEq .. ▸ h
    subst hq
    intro v hv
    simp only [SmartQueue.toListQ, List.mem_append] at hv ⊢
    rcases hv with (hv | hv) | hv <;> simp_all [List.mem_cons]

/-- No worker iteration ever adds a URL to any frontier: the queues only
shrink, because `process_domain` drops `PageResult.new_links` and nothing
calls `add_url_to_queue`. -/
theorem crawlStep_no_enqueue (robots : String → String → Bool)
    (outcome : String → Bool × List String) (maxPages : String → Nat)
    (g : GState) (d0 : String) :
    ∀ (d : String) (u : String),
      u ∈ ((crawlStep robots outcome maxPages g d0).queues d).toListQ →
      u ∈ (g.queues d).toListQ := by
  intro d u
  unfold crawlStep
  split_ifs with hcan
  · split
    · exact fun hu => hu
    · rename_i url q' hp
      have hupd : ∀ v, v ∈ ((Function.update g.queues d0 q') d).toListQ →
          v ∈ (g.queues d).toListQ := by
        intro v hv
        by_cases hd : d = d0
        · subst hd
          rw [Function.update_same] at hv
          exact pop_toListQ_sub (g.queues d) url q' hp v hv
        · rwa [Function.update_noteq hd] at hv
      split_ifs with hvis hrob hsucc <;> exact fun hu => hupd u hu
  · exact fun hu => hu

/-- C1 (code bug evidence): a page is fetched and processed successfully,
its `PageResult` carries one extracted same-site, filter-passing link, yet
after the iteration the domain's frontier is empty — the link was never
enqueued, because `process_domain` discards `result.new_links` and
`add_url_to_queue` is never called. -/
theorem c1_extracted_links_never_enqueued :
    ((crawlStep (fun _ _ => true) outcomeWithLink (fun _ => 10) gSeed "ex.com").queues
        "ex.com").toListQ = [] ∧
    (crawlStep (fun _ _ => true) outcomeWithLink (fun _ => 10) gSeed "ex.com").fetched =
      ["https://ex.com/a"] ∧
    (outcomeWithLink "https://ex.com/a").2 = ["https://ex.com/tutorial/t"] := by
  decide

/-- C2: no domain's accepted-page counter ever exceeds its budget — the
budget bound is preserved by every schedule of worker iterations, and the
scheduler only starts workers for domains strictly under budget. -/
theorem c2_budget_never_exceeded :
    (∀ (robots : String → String → Bool) (outcome : String → Bool × List String)
        (maxPages : String → Nat) (g : GState) (sched : List String),
        (∀ d, g.domain_counts d ≤ maxPages d) →
        ∀ d, (crawlRun robots outcome maxPages g sched).domain_counts d ≤ maxPages d) ∧
    (∀ (sources : List CrawlSrc) (finished active : List String)
        (counts qsize : String → Nat) (n : Nat) (d : String),
        d ∈ getDomainsToStart sources finished active counts qsize n →
        ∃ src ∈ sources, src.domain = d ∧ counts d < src.max_pages) := by
  constructor
  · intro robots outcome maxPages g sched h d
    exact crawlRun_counts_le robots outcome maxPages sched g h d
  · intro sources finished active counts qsize n d hd
    obtain ⟨src, hs, hdom, _, _, hc, _⟩ :=
      mem_getDomainsToStart sources finished active counts qsize n d hd
    exact ⟨src, hs, hdom, hc⟩

/-- C2 witness: the budget invariant evaluated on a concrete two-step
schedule, and the scheduler guard evaluated on a concrete source list. -/
theorem c2_witness :
    (crawlRun (fun _ _ => true) outcomeWithLink (fun _ => 3) gSeed
        ["ex.com", "ex.com"]).domain_counts "ex.com" ≤ 3 ∧
    ("d" ∈ getDomainsToStart [⟨"d", 10, 0⟩] [] [] (fun _ => 0) (fun _ => 1) 1 ∧
      (fun _ => (0 : Nat)) "d" < 10) := by
  constructor
  · exact c2_budget_never_exceeded.1 (fun _ _ => true) outcomeWithLink (fun _ => 3)
      gSeed ["ex.com", "ex.com"] (fun _ => Nat.zero_le _) "ex.com"
  · obtain ⟨src, hs, hdom, hc⟩ := c2_budget_never_exceeded.2 [⟨"d", 10, 0⟩] [] []
      (fun _ => 0) (fun _ => 1) 1 "d" (by decide)
    have hsrc : src = ⟨"d", 10, 0⟩ := by simpa using hs
    subst hsrc
    exact ⟨by decide, hc⟩

/-- C3: within a run no URL is fetched twice — over any schedule of worker
iterations the dispatched-fetch trace stays duplicate-free, every fetched
URL is in the visited set, and the visited set only grows. -/
theorem c3_no_url_fetched_twice :
    ∀ (robots : String → String → Bool) (outcome : String → Bool × List String)
      (maxPages : String → Nat) (g : GState) (sched : List String),
      g.fetched.Nodup → (∀ u ∈ g.fetched, u ∈ g.visited) →
      ((crawlRun robots outcome maxPages g sched).fetched.Nodup ∧
       (∀ u ∈ (crawlRun robots outcome maxPages g sched).fetched,
          u ∈ (crawlRun robots outcome maxPages g sched).visited) ∧
       (∀ u ∈ g.visited, u ∈ (crawlRun robots outcome maxPages g sched).visited)) := by
  intro robots outcome maxPages g sched hnd hsub
  obtain ⟨hv, hf⟩ := crawlRun_visited_fetched robots outcome maxPages sched g
  obtain ⟨h1, h2⟩ := hf hnd hsub
  exact ⟨h1, h2, hv⟩

/-- C3 witness: the no-refetch theorem applied to a concrete state and a
schedule that visits the same domain twice. -/
theorem c3_witness :
    gSeed.fetched.Nodup ∧
    (crawlRun (fun _ _ => true) outcomeWithLink (fun _ => 3) gSeed
      ["ex.com", "ex.com"]).fetched.Nodup := by
  refine ⟨by decide, ?_⟩
  exact (c3_no_url_fetched_twice (fun _ _ => true) outcomeWithLink (fun _ => 3)
    gSeed ["ex.com", "ex.com"] (by decide) (by decide)).1

/-! ### Domain lifecycle and the worker boundary -/

/-- C7 counterexample: a worker whose loop dies with an unhandled exception
returns the error `DomainResult` (neither complete nor exhausted), the
orchestrator records nothing in `finished_domains`, and on the very next
scheduling tick the same domain is selected to get a fresh worker — the
scheduler does spawn another worker for it. -/
theorem c7_counterexample :
    runWorkerFinish [] "d" (processDomainOnError "d" 10) = [] ∧
    getDomainsToStart [⟨"d", 10, 0⟩] (runWorkerFinish [] "d" (processDomainOnError "d" 10))
      [] (fun _ => 0) (fun _ => 1) 1 = ["d"] := by
  decide

/-- C7 (amended): domains recorded finished are terminal — the finished set
only grows and the scheduler never selects a finished domain; but an
exception caught inside `process_domain` yields a result that is neither
complete nor exhausted, which the orchestrator does not record as finished
(so that domain may be re-activated); only an exception escaping
`process_domain` itself is recorded as finished by `_run_worker`'s handler.
In all cases the exception is absorbed at the worker boundary. -/
theorem c7_terminal_isolation :
    (∀ (sources : List CrawlSrc) (finished active : List String)
        (counts qsize : String → Nat) (n : Nat) (d : String),
        d ∈ finished → d ∉ getDomainsToStart sources finished active counts qsize n) ∧
    (∀ (finished : List String) (d d' : String) (res : DomainResult),
        d ∈ finished → d ∈ runWorkerFinish finished d' res) ∧
    (∀ (finished : List String) (d d' : String),
        d ∈ finished → d ∈ runWorkerOnException finished d') ∧
    (∀ (d : String) (mp : Nat),
        (processDomainOnError d mp).is_complete = false ∧
        (processDomainOnError d mp).is_exhausted = false) ∧
    (∀ (finished : List String) (d : String) (mp : Nat),
        runWorkerFinish finished d (processDomainOnError d mp) = finished) ∧
    (∀ (finished : List String) (d : String), d ∈ runWorkerOnException finished d) := by
  refine ⟨?_, ?_, ?_, ?_, ?_, ?_⟩
  · intro sources finished active counts qsize n d hfin hd
    obtain ⟨src, _, hdom, hnot, _⟩ :=
      mem_getDomainsToStart sources finished active counts qsize n d hd
    exact hnot hfin
  · intro finished d d' res hd
    unfold runWorkerFinish addFinished
    split_ifs <;> first | exact hd | exact List.mem_cons_of_mem d' hd
  · intro finished d d' hd
    unfold runWorkerOnException addFinished
    split_ifs <;> first | exact hd | exact List.mem_cons_of_mem d' hd
  · intro d mp; exact ⟨rfl, rfl⟩
  · intro finished d mp; rfl
  · intro finished d
    unfold runWorkerOnException addFinished
    split_ifs with h
    · exact h
    · exact List.mem_cons_self d finished

/-- C7 witness: the terminal-state guarantees evaluated on concrete data —
a finished domain is never rescheduled, survives every bookkeeping update,
and the exception-path result records nothing. -/
theorem c7_witness :
    ("d" ∉ getDomainsToStart [⟨"d", 10, 0⟩] ["d"] [] (fun _ => 0) (fun _ => 1) 1) ∧
    "d" ∈ runWorkerFinish ["d"] "e" (processDomainOnError "e" 5) ∧
    "d" ∈ runWorkerOnException ["d"] "e" ∧
    (processDomainOnError "d" 10).is_complete = false ∧
    runWorkerFinish ["e"] "d" (processDomainOnError "d" 10) = ["e"] ∧
    "d" ∈ runWorkerOnException [] "d" := by
  refine ⟨?_, ?_, ?_, ?_, ?_, ?_⟩
  · exact c7_terminal_isolation.1 [⟨"d", 10, 0⟩] ["d"] [] (fun _ => 0) (fun _ => 1) 1 "d"
      (by decide)
  · exact c7_terminal_isolation.2.1 ["d"] "d" "e" (processDomainOnError "e" 5) (by decide)
  · exact c7_terminal_isolation.2.2.1 ["d"] "d" "e" (by decide)
  · exact (c7_terminal_isolation.2.2.2.1 "d" 10).1
  · exact c7_terminal_isolation.2.2.2.2.1 ["e"] "d" 10
  · exact c7_terminal_isolation.2.2.2.2.2 [] "d"

/-! ### Sitemap discovery -/

/-- Elements produced by the dedup pass were not in the seen accumulator. -/
theorem mem_dedupAux : ∀ (l seen : List String) (x : String),
    x ∈ dedupAux seen l → x ∉ seen := by
  intro l
  induction l with
  | nil => intro seen x hx; simp [dedupAux] at hx
  | cons a t ih =>
    intro seen x hx
    simp only [dedupAux] at hx
    split_ifs at hx with ha
    · exact ih seen x hx
    · rcases List.mem_cons.mp hx with hxa | hxt
      · exact hxa ▸ ha
      · intro hxs
        exact ih (a :: seen) x hxt (List.mem_cons_of_mem a hxs)

/-- The dedup pass returns a duplicate-free list. -/
theorem dedupAux_nodup : ∀ (l seen : List String), (dedupAux seen l).Nodup := by
  intro l
  induction l with
  | nil => intro seen; simp [dedupAux]
  | cons a t ih =>
    intro seen
    simp only [dedupAux]
    split_ifs with ha
    · exact ih seen
    · refine List.nodup_cons.mpr ⟨?_, ih (a :: seen)⟩
      intro hmem
      exact mem_dedupAux t (a :: seen) a hmem (List.mem_cons_self a seen)

/-- The dedup pass never lengthens a list. -/
theorem dedupAux_length : ∀ (l seen : List String),
    (dedupAux seen l).length ≤ l.length := by
  intro l
  induction l with
  | nil => intro seen; simp [dedupAux]
  | cons a t ih =>
    intro seen
    simp only [dedupAux]
    split_ifs with ha
    · exact Nat.le_succ_of_le (ih seen)
    · simpa using ih (a :: seen)

/-- C8 counterexample: on a chain of five nested sitemap indexes the code
still harvests the page URL buried four levels deep — its recursion is not
depth-limited — while the spec's depth-3 expansion finds nothing. -/
theorem c8_depth_counterexample :
    fetchSitemaps chainWeb ["https://d/s0"] "d" = ["https://d/page"] ∧
    fetchSitemapsSpecDepth3 chainWeb ["https://d/s0"] "d" = [] := by
  decide

/-- C8 (amended): sitemap seed discovery always returns a deduplicated list
of at most 50 page URLs, and any fetch/parse failure of a sitemap is
non-fatal, contributing an empty list; the breadth of expansion is capped
at 3 sitemaps per level, but the nesting depth is bounded only by the
quota and the interpreter recursion limit, not by 3. -/
theorem c8_sitemap_bounds :
    (∀ (web : String → Option (List String × List String))
        (declared : List String) (domain : String),
        (fetchSitemaps web declared domain).Nodup ∧
        (fetchSitemaps web declared domain).length ≤ MAX_SITEMAP_URLS) ∧
    (∀ (web : String → Option (List String × List String))
        (fuel : Nat) (url : String) (q : Option Int),
        web url = none → fetchAndParseSitemap web fuel url q = []) := by
  constructor
  · intro web declared domain
    constructor
    · exact dedupAux_nodup _ _
    · calc (fetchSitemaps web declared domain).length
          ≤ (List.take MAX_SITEMAP_URLS
              (((if declared.isEmpty then ["https://" ++ domain ++ "/sitemap.xml"]
                  else declared).take 3).foldl _ ([], false)).1).length :=
            dedupAux_length _ _
        _ ≤ MAX_SITEMAP_URLS := List.length_take_le _ _
  · intro web fuel url q hweb
    cases fuel with
    | zero => rfl
    | succ f =>
      simp only [fetchAndParseSitemap]
      split_ifs with h
      · rfl
      · rw [hweb]

/-- C8 witness: the quota, dedup and non-fatal-failure guarantees evaluated
on the concrete chain-of-sitemaps web. -/
theorem c8_witness :
    (fetchSitemaps chainWeb ["https://d/s0"] "d").Nodup ∧
    (fetchSitemaps chainWeb ["https://d/s0"] "d").length ≤ MAX_SITEMAP_URLS ∧
    fetchAndParseSitemap chainWeb 7 "https://nowhere" (some 50) = [] := by
  obtain ⟨h1, h2⟩ := c8_sitemap_bounds.1 chainWeb ["https://d/s0"] "d"
  exact ⟨h1, h2, c8_sitemap_bounds.2 chainWeb 7 "https://nowhere" (some 50) (by decide)⟩

/-! ### Rejection statistics -/

/-- C9 counterexample: a page whose markdown is non-blank but shorter than
`min_char_count` is rejected with reason `empty_strip`, and the worker's
statistics dispatch increments nothing for it — this rejection reason has
no statistics counter. -/
theorem c9_counterexample :
    (contentProcess (fun _ => true) (fun _ _ _ => (0, false)) 45 "https://e.com/a"
        (some "ab") none "t" []).accepted = false ∧
    (contentProcess (fun _ => true) (fun _ _ _ => (0, false)) 45 "https://e.com/a"
        (some "ab") none "t" []).rejection_reason = some "empty_strip" ∧
    applyRejectionStats statsZero
        ((contentProcess (fun _ => true) (fun _ _ _ => (0, false)) 45 "https://e.com/a"
          (some "ab") none "t" []).rejection_reason) = statsZero := by
  decide

/-- C9 (amended): the five named rejection reasons — duplicate, quality,
language, empty, too-short — each increment exactly their own counter and
leave every other field unchanged, and content processing only ever emits
a reason from the fixed six-element set; the sixth reason, `empty_strip`,
increments no counter.  Rejections are data, not exceptions: both the
processor and the dispatch are total functions. -/
theorem c9_rejection_statistics :
    (∀ stats : Statistics,
        applyRejectionStats stats (some "duplicate") =
          { stats with pages_rejected_duplicate := stats.pages_rejected_duplicate + 1 } ∧
        applyRejectionStats stats (some "quality") =
          { stats with pages_rejected_quality := stats.pages_rejected_quality + 1 } ∧
        applyRejectionStats stats (some "language") =
          { stats with pages_rejected_lang := stats.pages_rejected_lang + 1 } ∧
        applyRejectionStats stats (some "empty") =
          { stats with pages_rejected_empty := stats.pages_rejected_empty + 1 } ∧
        applyRejectionStats stats (some "too_short") =
          { stats with pages_rejected_short := stats.pages_rejected_short + 1 } ∧
        applyRejectionStats stats (some "empty_strip") = stats) ∧
    (∀ (isEng : String → Bool) (qual : String → String → String → ℚ × Bool)
        (thr : ℚ) (url : String) (md tc : Option String) (title : String)
        (fl : List String),
        (contentProcess isEng qual thr url md tc title fl).accepted = false →
        (contentProcess isEng qual thr url md tc title fl).rejection_reason ∈
          [some "empty", some "empty_strip", some "too_short", some "language",
           some "duplicate", some "quality"]) := by
  constructor
  · intro stats
    refine ⟨?_, ?_, ?_, ?_, ?_, ?_⟩ <;> simp [applyRejectionStats]
  · intro isEng qual thr url md tc title fl
    simp only [contentProcess]
    split
    · simp
    · split_ifs <;> simp

/-- C9 witness: the per-reason increments evaluated on the zero statistics
record, and the reason taxonomy evaluated on a concrete rejected page. -/
theorem c9_witness :
    applyRejectionStats statsZero (some "duplicate") =
      { statsZero with pages_rejected_duplicate := statsZero.pages_rejected_duplicate + 1 } ∧
    applyRejectionStats statsZero (some "empty_strip") = statsZero ∧
    (contentProcess (fun _ => true) (fun _ _ _ => (0, false)) 45 "https://e.com/b"
        (some "xy") none "t" []).rejection_reason ∈
      [some "empty", some "empty_strip", some "too_short", some "language",
       some "duplicate", some "quality"] := by
  obtain ⟨h1, _, _, _, _, h6⟩ := c9_rejection_statistics.1 statsZero
  refine ⟨h1, h6, ?_⟩
  exact c9_rejection_statistics.2 (fun _ => true) (fun _ _ _ => (0, false)) 45
    "https://e.com/b" (some "xy") none "t" [] (by decide)
